import Mathlib

/-!
Verification of the csvq query-execution core against its specification.

The Go source is shallowly embedded: the dynamically-typed value domain
becomes an inductive type, built-in scalar functions become Lean functions
over it, and the one-shot `Run` driver becomes a pure function from its
external inputs (parser outcome, file-system state, procedure outcome) to
its returned error and the ordered list of side effects it performs.

Modelling conventions:
* Go `float64` is embedded as `FloatV`: an exact rational for the finite
  range plus explicit infinities and NaN.  Finite arithmetic is exact
  (range overflow of the 64-bit format is idealized away); the IEEE-754
  special-value propagation rules, which the code under test branches on,
  are modelled explicitly.
* Go `int64` is embedded as `Int`; two's-complement wrap-around is applied
  explicitly (`wrap64`) at the one spot where the source can overflow.
* Go strings are embedded as Lean `String` (sequences of runes); byte
  counts are recovered through UTF-8 rune sizes, which is faithful because
  UTF-8 is self-synchronizing, so byte-level substring search and
  truncation in the source always align with rune boundaries or fail.
-/

namespace Csvq

/-- Ternary logic values TRUE/FALSE/UNKNOWN of the value domain. -/
inductive Ternary3 where
  | tTrue
  | tFalse
  | tUnknown
deriving DecidableEq, Repr

/-- Embedding of Go `float64`: exact rationals for finite values plus the
IEEE-754 special values (signed infinity, NaN).  Finite-range overflow of
the 64-bit format is idealized away. -/
inductive FloatV where
  | finite (q : ℚ)
  | inf (pos : Bool)
  | nan
deriving DecidableEq, Repr

/-- Embedding of Go `time.Time` as used by the datetime functions: the
calendar fields returned by `Date()`/`Clock()` plus the location name.
(`time.Date` with in-range fields is plain record construction.) -/
structure GoTime where
  year : ℤ
  month : ℤ
  day : ℤ
  hour : ℤ
  minute : ℤ
  second : ℤ
  nanosecond : ℤ
  loc : String
deriving DecidableEq, Repr

/-- The value domain of csvq (`value.Primary` in the source): tagged union
of Null, Boolean, Ternary, Integer(i64), Float(f64), Datetime, String. -/
inductive Value where
  | null
  | boolean (b : Bool)
  | ternary (t : Ternary3)
  | integer (i : ℤ)
  | float (f : FloatV)
  | datetime (t : GoTime)
  | str (s : String)
deriving DecidableEq, Repr

/-- `value.IsNull`. -/
def IsNull : Value → Bool
  | .null => true
  | _ => false

/-- Modelled from the spec: `value.ToFloat` (lib/value is not under src/).
"Conversions are explicit and null-propagating: ToInteger/ToFloat return
Null on failure", with "automatic widening (integer -> float; string ->
number when parseable)".  Numeric-string parsing is modelled for integer
literals only; no claim depends on fractional string literals. -/
def ToFloat : Value → Value
  | .float f => .float f
  | .integer i => .float (.finite (i : ℚ))
  | .str s =>
    match s.toInt? with
    | some i => .float (.finite (i : ℚ))
    | none => .null
  | _ => .null

/-- Modelled from the spec: `value.ToInteger` (lib/value is not under
src/).  Null-propagating; a Float narrows to Integer only when integral. -/
def ToInteger : Value → Value
  | .integer i => .integer i
  | .float (.finite q) => if q.den = 1 then .integer q.num else .null
  | .str s =>
    match s.toInt? with
    | some i => .integer i
    | none => .null
  | _ => .null

/-- Modelled from the spec: `value.ToString` (lib/value is not under
src/): strings pass through, numbers format to their decimal text, other
values yield Null. -/
def ToString : Value → Value
  | .str s => .str s
  | .integer i => .str (toString i)
  | .float (.finite q) => .str (toString q)
  | _ => .null

/-- Modelled from the spec: `value.ToBoolean` (lib/value is not under
src/): booleans pass through, determinate ternaries and the usual
boolean-looking literals convert, anything else yields Null. -/
def ToBoolean : Value → Value
  | .boolean b => .boolean b
  | .ternary .tTrue => .boolean true
  | .ternary .tFalse => .boolean false
  | .integer 0 => .boolean false
  | .integer 1 => .boolean true
  | .str s =>
    if s = "true" ∨ s = "TRUE" ∨ s = "1" then .boolean true
    else if s = "false" ∨ s = "FALSE" ∨ s = "0" then .boolean false
    else .null
  | _ => .null

/-- Modelled from the spec: `value.ToDatetime` (lib/value is not under
src/): datetimes pass through; datetime-string parsing is not modelled
(no claim depends on it); everything else yields Null. -/
def ToDatetime : Value → Value
  | .datetime t => .datetime t
  | _ => .null

/-- Modelled from the spec: `value.ParseFloat64` (lib/value is not under
src/): a float result with integral value is returned as Integer, any
other float -- including the non-finite ones -- is returned as a Float
unchanged.  (The explicit IsInf/IsNaN guard inside `execMath1Arg` in
src/unnamed/part_002 would be dead code if this constructor nullified
non-finite floats.) -/
def ParseFloat64 : FloatV → Value
  | .finite q => if q.den = 1 then .integer q.num else .float (.finite q)
  | f => .float f

/-! ### IEEE-754 special-value arithmetic on `FloatV`

Finite arithmetic is exact; NaN propagates; infinities follow the
IEEE-754 rules Go's float64 operations implement. -/

/-- Go float64 multiplication. -/
def mulF : FloatV → FloatV → FloatV
  | .nan, _ => .nan
  | _, .nan => .nan
  | .inf p, .inf q => .inf (p == q)
  | .inf p, .finite q => if q = 0 then .nan else .inf (p == decide (0 < q))
  | .finite q, .inf p => if q = 0 then .nan else .inf (p == decide (0 < q))
  | .finite a, .finite b => .finite (a * b)

/-- Go float64 addition. -/
def addF : FloatV → FloatV → FloatV
  | .nan, _ => .nan
  | _, .nan => .nan
  | .inf p, .inf q => if p = q then .inf p else .nan
  | .inf p, .finite _ => .inf p
  | .finite _, .inf p => .inf p
  | .finite a, .finite b => .finite (a + b)

/-- Go float64 subtraction. -/
def subF (a b : FloatV) : FloatV :=
  addF a
    (match b with
     | .finite q => .finite (-q)
     | .inf p => .inf (!p)
     | .nan => .nan)

/-- Go float64 division (0/0 and inf/inf give NaN, x/0 gives a signed
infinity, x/inf gives 0). -/
def divF : FloatV → FloatV → FloatV
  | .nan, _ => .nan
  | _, .nan => .nan
  | .inf _, .inf _ => .nan
  | .inf p, .finite q => .inf (p == decide (0 ≤ q))
  | .finite _, .inf _ => .finite 0
  | .finite a, .finite b =>
    if b = 0 then (if a = 0 then .nan else .inf (decide (0 ≤ a)))
    else .finite (a / b)

/-- Go `math.Floor` (of an infinity or NaN returns it unchanged). -/
def floorF : FloatV → FloatV
  | .finite q => .finite (⌊q⌋ : ℚ)
  | f => f

/-- Go `math.Ceil`. -/
def ceilF : FloatV → FloatV
  | .finite q => .finite (⌈q⌉ : ℚ)
  | f => f

/-- Go float64 `<` comparison: any comparison with NaN is false. -/
def ltF : FloatV → FloatV → Bool
  | .nan, _ => false
  | _, .nan => false
  | .inf p, .inf q => !p && q
  | .inf p, .finite _ => !p
  | .finite _, .inf q => q
  | .finite a, .finite b => decide (a < b)

/-- Is the float non-finite?  (`math.IsInf(f, 0) || math.IsNaN(f)`.) -/
def nonFinite : FloatV → Bool
  | .finite _ => false
  | _ => true

/-! ### Built-in scalar functions (src/unnamed/part_002) -/

/-- Errors a built-in can return.  The Go functions build them from the
invoked `parser.Function`; we keep the invoked name.  `panicked` models a
Go runtime panic (an abnormal termination, not a returned error). -/
inductive FuncError where
  | argumentLength (name : String) (allowed : List ℕ)
  | invalidArgument (name msg : String)
  | panicked (msg : String)
deriving DecidableEq, Repr

/-- `roundParams`: extract (number, place, isnull, argsErr) for
CEIL/FLOOR/ROUND.  The Go `place` is `float64(int64)`; an `ℤ` carries it
exactly. -/
def roundParams : List Value → FloatV × ℤ × Bool × Bool
  | [a] =>
    match ToFloat a with
    | .float f => (f, 0, false, false)
    | _ => (.finite 0, 0, true, false)
  | [a, b] =>
    match ToFloat a with
    | .float f =>
      match ToInteger b with
      | .integer i => (f, i, false, false)
      | _ => (f, 0, true, false)
    | _ => (.finite 0, 0, true, false)
  | _ => (.finite 0, 0, false, true)

/-- `Ceil` built-in. -/
def Ceil (fname : String) (args : List Value) : Except FuncError Value :=
  let (number, place, isnull, argsErr) := roundParams args
  if argsErr then .error (.argumentLength fname [1, 2])
  else if isnull then .ok .null
  else
    let pow : FloatV := .finite ((10 : ℚ) ^ place)
    .ok (ParseFloat64 (divF (ceilF (mulF pow number)) pow))

/-- `Floor` built-in. -/
def Floor (fname : String) (args : List Value) : Except FuncError Value :=
  let (number, place, isnull, argsErr) := roundParams args
  if argsErr then .error (.argumentLength fname [1, 2])
  else if isnull then .ok .null
  else
    let pow : FloatV := .finite ((10 : ℚ) ^ place)
    .ok (ParseFloat64 (divF (floorF (mulF pow number)) pow))

/-- The unexported `round` helper: `Ceil(pow*f-0.5)/pow` for negative `f`,
`Floor(pow*f+0.5)/pow` otherwise. -/
def round (f : FloatV) (place : ℤ) : FloatV :=
  let pow : FloatV := .finite ((10 : ℚ) ^ place)
  if ltF f (.finite 0) then divF (ceilF (subF (mulF pow f) (.finite (1/2)))) pow
  else divF (floorF (addF (mulF pow f) (.finite (1/2)))) pow

/-- `Round` built-in. -/
def Round (fname : String) (args : List Value) : Except FuncError Value :=
  let (number, place, isnull, argsErr) := roundParams args
  if argsErr then .error (.argumentLength fname [1, 2])
  else if isnull then .ok .null
  else .ok (ParseFloat64 (round number place))

/-- `execMath1Arg`: shared wrapper for the one-argument math built-ins
(ABS, ACOS, ASIN, ATAN, COS, SIN, TAN, EXP, EXP2, EXPM1, LOG, LOG10,
LOG2, LOG1P, SQRT).  `mathf` stands for the Go standard-library function
the built-in closes over. -/
def execMath1Arg (fname : String) (args : List Value)
    (mathf : FloatV → FloatV) : Except FuncError Value :=
  match args with
  | [a] =>
    match ToFloat a with
    | .float f =>
      let result := mathf f
      if nonFinite result then .ok .null else .ok (ParseFloat64 result)
    | _ => .ok .null
  | _ => .error (.argumentLength fname [1])

/-- `execMath2Args`: shared wrapper for ATAN2 and POW. -/
def execMath2Args (fname : String) (args : List Value)
    (mathf : FloatV → FloatV → FloatV) : Except FuncError Value :=
  match args with
  | [a, b] =>
    match ToFloat a with
    | .float f1 =>
      match ToFloat b with
      | .float f2 =>
        let result := mathf f1 f2
        if nonFinite result then .ok .null else .ok (ParseFloat64 result)
      | _ => .ok .null
    | _ => .ok .null
  | _ => .error (.argumentLength fname [2])

/-- Go `math.Abs` (documented: Abs(+-Inf)=+Inf, Abs(NaN)=NaN). -/
def absF : FloatV → FloatV
  | .finite q => .finite |q|
  | .inf _ => .inf true
  | .nan => .nan

/-- `Abs` built-in. -/
def Abs (fname : String) (args : List Value) : Except FuncError Value :=
  execMath1Arg fname args absF

/-- UTF-8 byte length of a rune sequence (`len` of a Go string). -/
def utf8Len (s : List Char) : ℕ := (s.map Char.utf8Size).sum

/-- Go `strings.Index` as a byte offset.  The search is modelled at rune
granularity, which agrees with Go's byte-level search because UTF-8 is
self-synchronizing: a valid encoded needle can only match at a rune
boundary of a valid haystack. -/
def goIndex : List Char → List Char → Option ℕ
  | s, sub =>
    if sub.isPrefixOf s then some 0
    else
      match s with
      | [] => none
      | c :: rest => (goIndex rest sub).map (c.utf8Size + ·)

/-- `Substr` built-in: rune-indexed substring with negative-start wrap. -/
def Substr (fname : String) (args : List Value) : Except FuncError Value :=
  if args.length < 2 ∨ 3 < args.length then .error (.argumentLength fname [2, 3])
  else
    match args with
    | arg0 :: arg1 :: rest =>
      match ToString arg0 with
      | .str s =>
        let runes := s.toList
        let strlen : ℤ := runes.length
        match ToInteger arg1 with
        | .integer i0 =>
          let start := if i0 < 0 then strlen + i0 else i0
          if start < 0 ∨ strlen ≤ start then .ok .null
          else
            match rest with
            | [] => .ok (.str (String.mk (runes.drop start.toNat)))
            | arg2 :: _ =>
              match ToInteger arg2 with
              | .integer l =>
                if l < 0 then .ok .null
                else
                  let endPos := min (start + l) strlen
                  .ok (.str (String.mk
                    ((runes.drop start.toNat).take (endPos - start).toNat)))
              | _ => .ok .null
        | _ => .ok .null
      | _ => .ok .null
    | _ => .error (.argumentLength fname [2, 3])

/-- Padding direction (`Direction` constants `R`/`L`). -/
inductive Direction where
  | right
  | left
deriving DecidableEq, Repr

/-- Padding metric (`PaddingType` constants `LEN`/`BYTE`/`WIDTH`). -/
inductive PaddingType where
  | runeCount
  | byteCount
  | widthCount
deriving DecidableEq, Repr

/-- File encodings the engine supports. -/
inductive Encoding where
  | utf8
  | sjis
deriving DecidableEq, Repr

/-- Go `strings.ToUpper`, modelled per rune (the names compared in this
development are ASCII, where Go and this map agree). -/
def goToUpper (s : String) : String := String.mk (s.toList.map Char.toUpper)

/-- Modelled from the spec: `cmd.ParseEncoding` (lib/cmd is not under
src/); the spec's option table lists the accepted values, case ignored,
as UTF8 and SJIS. -/
def ParseEncoding (s : String) : Except String Encoding :=
  match goToUpper s with
  | "UTF8" => .ok .utf8
  | "SJIS" => .ok .sjis
  | _ => .error "encoding must be one of UTF8|SJIS"

/-- Metric length of a rune sequence: rune count, byte count under the
chosen encoding (`text.ByteSize`), or display width (`cmd.TextWidth`).
Both external functions are additive over runes for the stateless
encodings involved, so they are passed in as per-rune sizes. -/
def strMetric (pt : PaddingType) (sz : Char → ℕ) (rw : Char → ℕ)
    (s : List Char) : ℕ :=
  match pt with
  | .runeCount => s.length
  | .byteCount => (s.map sz).sum
  | .widthCount => (s.map rw).sum

/-- The byte/width truncation loop of `execStringsPadding`: consume runes
until the accumulated size reaches `target` exactly; overshooting is the
error case (the source then reports that the pad cannot be split). -/
def padLoop (sz : Char → ℕ) (target : ℕ) : ℕ → List Char → Except Unit (List Char)
  | _, [] => .ok []
  | l, c :: rest =>
    let l' := l + sz c
    if l' = target then .ok [c]
    else if target < l' then .error ()
    else (padLoop sz target l' rest).map (c :: ·)

/-- `execStringsPadding`: the shared body of LPAD and RPAD.
`byteSizeOf` stands for go-text's `RuneByteSize`, `runeWidthOf` for
`cmd.RuneWidth`.  The `rep` count uses exact ceiling division; the Go
float ceiling agrees except when the pad's metric length is zero, where
the Go program panics (all theorems below assume a positive pad metric). -/
def execStringsPadding (byteSizeOf : Encoding → Char → ℕ)
    (runeWidthOf : Char → ℕ) (fname : String) (args : List Value)
    (direction : Direction) : Except FuncError Value :=
  if args.length < 3 ∨ 5 < args.length then .error (.argumentLength fname [3, 4, 5])
  else
    match args with
    | arg0 :: arg1 :: arg2 :: rest =>
      match ToString arg0 with
      | .str s =>
        match ToInteger arg1 with
        | .integer lenI =>
          match ToString arg2 with
          | .str padstr => do
            let padType : PaddingType ←
              match rest.head? with
              | none => pure .runeCount
              | some t =>
                match ToString t with
                | .str ts =>
                  match goToUpper ts with
                  | "LEN" => pure .runeCount
                  | "BYTE" => pure .byteCount
                  | "WIDTH" => pure .widthCount
                  | _ => .error (.invalidArgument fname
                      "padding type must be one of LEN|BYTE|WIDTH")
                | _ => pure .runeCount
            let enc : Encoding ←
              match (rest.drop 1).head? with
              | none => pure .utf8
              | some e =>
                match ToString e with
                | .str es =>
                  match ParseEncoding es with
                  | .ok enc => pure enc
                  | .error msg => .error (.invalidArgument fname msg)
                | _ => pure .utf8
            let sz := byteSizeOf enc
            let strRunes := s.toList
            let padRunes := padstr.toList
            let strLen : ℤ := (strMetric padType sz runeWidthOf strRunes : ℕ)
            let padstrLen : ℕ := strMetric padType sz runeWidthOf padRunes
            if lenI ≤ strLen then .ok arg0
            else do
              let padLen : ℕ := (lenI - strLen).toNat
              let rep : ℕ := (padLen + padstrLen - 1) / padstrLen
              let repeated := List.flatten (List.replicate rep padRunes)
              let padding : List Char ←
                match padType with
                | .runeCount => pure (repeated.take padLen)
                | .byteCount =>
                  match padLoop sz padLen 0 repeated with
                  | .ok buf => pure buf
                  | .error _ => .error (.invalidArgument fname
                      "cannot split pad string in a byte array of a character")
                | .widthCount =>
                  match padLoop runeWidthOf padLen 0 repeated with
                  | .ok buf => pure buf
                  | .error _ => .error (.invalidArgument fname
                      "cannot split pad string in a byte array of a character")
              match direction with
              | .right => .ok (.str (String.mk (strRunes ++ padding)))
              | .left => .ok (.str (String.mk (padding ++ strRunes)))
          | _ => .ok .null
        | _ => .ok .null
      | _ => .ok .null
    | _ => .error (.argumentLength fname [3, 4, 5])

/-- Modelled from the spec: go-text's per-rune byte size for the two
supported encodings.  UTF-8 sizes are the standard ones; SJIS is modelled
as 1 byte for ASCII and 2 otherwise (no claim depends on SJIS detail). -/
def goByteSize : Encoding → Char → ℕ
  | .utf8 => Char.utf8Size
  | .sjis => fun c => if c.toNat < 0x80 then 1 else 2

/-- Modelled from the spec: `cmd.RuneWidth` (lib/cmd is not under src/):
display width; fullwidth East Asian characters occupy two columns, others
one.  (Flag-dependent handling of ambiguous-width and zero-width classes
is not modelled; no claim depends on it.) -/
def goRuneWidth (c : Char) : ℕ :=
  let n := c.toNat
  if (0x1100 ≤ n ∧ n ≤ 0x115F) ∨ (0x3000 ≤ n ∧ n ≤ 0x30FF) ∨
     (0x4E00 ≤ n ∧ n ≤ 0x9FFF) ∨ (0xAC00 ≤ n ∧ n ≤ 0xD7A3) ∨
     (0xFF00 ≤ n ∧ n ≤ 0xFF60) then 2 else 1

/-- `Lpad` built-in. -/
def Lpad (fname : String) (args : List Value) : Except FuncError Value :=
  execStringsPadding goByteSize goRuneWidth fname args .left

/-- `Rpad` built-in. -/
def Rpad (fname : String) (args : List Value) : Except FuncError Value :=
  execStringsPadding goByteSize goRuneWidth fname args .right

/-- `Instr` built-in: byte offset of the first occurrence. -/
def Instr (fname : String) (args : List Value) : Except FuncError Value :=
  match args with
  | [a0, a1] =>
    match ToString a0 with
    | .str s =>
      match ToString a1 with
      | .str sub =>
        match goIndex s.toList sub.toList with
        | none => .ok .null
        | some idx => .ok (.integer idx)
      | _ => .ok .null
    | _ => .ok .null
  | _ => .error (.argumentLength fname [2])

/-- Contract of the process random generator (`cmd.GetRand()` hands out a
`math/rand` generator; Go standard library, external): `Float64` yields a
value in `[0,1)` and `Int63n n` yields a value in `[0,n)`; `Int63n`
panics when its bound is not positive. -/
structure RandGen where
  float64 : ℚ
  float64_nonneg : 0 ≤ float64
  float64_lt_one : float64 < 1
  int63 : ℤ → ℤ
  int63_nonneg : ∀ n, 0 < n → 0 ≤ int63 n
  int63_lt : ∀ n, 0 < n → int63 n < n

/-- Two's-complement wrap-around of Go `int64` arithmetic. -/
def wrap64 (x : ℤ) : ℤ := (x + 2 ^ 63) % 2 ^ 64 - 2 ^ 63

/-- `rand.Int63n` (Go standard library): panics when the bound is not
positive, otherwise draws from `[0, n)`. -/
def int63n (r : RandGen) (n : ℤ) : Except FuncError ℤ :=
  if n ≤ 0 then .error (.panicked "invalid argument to Int63n")
  else .ok (r.int63 n)

/-- `Rand` built-in.  `delta := high - low + 1` is 64-bit arithmetic, so
the wrap is applied exactly as the machine would. -/
def Rand (r : RandGen) (fname : String) (args : List Value) :
    Except FuncError Value :=
  if 0 < args.length ∧ args.length ≠ 2 then .error (.argumentLength fname [0, 2])
  else
    match args with
    | [] => .ok (.float (.finite r.float64))
    | [a, b] =>
      match ToInteger a with
      | .integer low =>
        match ToInteger b with
        | .integer high =>
          if high ≤ low then
            .error (.invalidArgument fname
              "the second argument must be greater than the first argument")
          else do
            let delta := wrap64 (high - low + 1)
            let n ← int63n r delta
            .ok (.integer (wrap64 (n + low)))
        | _ => .error (.invalidArgument fname
            "the second argument must be an integer")
      | _ => .error (.invalidArgument fname
          "the first argument must be an integer")
    | _ => .error (.argumentLength fname [0, 2])

/-- `truncateDate`: zero the time of day, and for `place` 1 / 2 reset the
day / the day and month, keeping the location. -/
def truncateDate (fname : String) (args : List Value) (place : ℤ) :
    Except FuncError Value :=
  match args with
  | [a] =>
    match ToDatetime a with
    | .datetime t =>
      let d := if place = 1 ∨ place = 2 then 1 else t.day
      let m := if place = 2 then 1 else t.month
      .ok (.datetime
        { year := t.year, month := m, day := d, hour := 0, minute := 0,
          second := 0, nanosecond := 0, loc := t.loc })
    | _ => .ok .null
  | _ => .error (.argumentLength fname [1])

/-- `TruncMonth` built-in. -/
def TruncMonth (fname : String) (args : List Value) : Except FuncError Value :=
  truncateDate fname args 2

/-- `TruncDay` built-in. -/
def TruncDay (fname : String) (args : List Value) : Except FuncError Value :=
  truncateDate fname args 1

/-- `TruncTime` built-in. -/
def TruncTime (fname : String) (args : List Value) : Except FuncError Value :=
  truncateDate fname args 0

/-- The built-in dispatch table `Functions`, restricted to the entries
whose implementations are embedded in this development (the source table
carries further string/crypto/datetime entries none of the claims need;
`RAND` is dispatched through the process generator and is embedded as
`Rand` above).  As in the source, `TRUNC_TIME` and `TRUNC_HOUR` both bind
the `TruncTime` implementation. -/
def Functions : String → Option (String → List Value → Except FuncError Value)
  | "CEIL" => some Ceil
  | "FLOOR" => some Floor
  | "ROUND" => some Round
  | "ABS" => some Abs
  | "LPAD" => some Lpad
  | "RPAD" => some Rpad
  | "SUBSTR" => some Substr
  | "INSTR" => some Instr
  | "TRUNC_MONTH" => some TruncMonth
  | "TRUNC_DAY" => some TruncDay
  | "TRUNC_TIME" => some TruncTime
  | "TRUNC_HOUR" => some TruncTime
  | _ => none

/-! ### SET FLAG (src/unnamed/part_001, `SetFlag`)

The flag-name constants and the `Flags` record live in lib/cmd, which is
not under src/; they are modelled from the spec's flag catalogue.  The
fallible setters (`SetRepository`, `SetLocation`, ...) validate their
argument before storing it; they are passed in abstractly, since only the
two error paths before any setter runs matter to the claims. -/

def RepositoryFlag : String := "REPOSITORY"

def TimezoneFlag : String := "TIMEZONE"

def DatetimeFormatFlag : String := "DATETIME_FORMAT"

def WaitTimeoutFlag : String := "WAIT_TIMEOUT"

def DelimiterFlag : String := "DELIMITER"

def JsonQueryFlag : String := "JSON_QUERY"

def EncodingFlag : String := "ENCODING"

def NoHeaderFlag : String := "NO_HEADER"

def WithoutNullFlag : String := "WITHOUT_NULL"

def FormatFlag : String := "FORMAT"

def WriteEncodingFlag : String := "WRITE_ENCODING"

def WriteDelimiterFlag : String := "WRITE_DELIMITER"

def WithoutHeaderFlag : String := "WITHOUT_HEADER"

def LineBreakFlag : String := "LINE_BREAK"

def EncloseAll : String := "ENCLOSE_ALL"

def JsonEscape : String := "JSON_ESCAPE"

def PrettyPrintFlag : String := "PRETTY_PRINT"

def EastAsianEncodingFlag : String := "EAST_ASIAN_ENCODING"

def CountDiacriticalSignFlag : String := "COUNT_DIACRITICAL_SIGN"

def CountFormatCodeFlag : String := "COUNT_FORMAT_CODE"

def ColorFlag : String := "COLOR"

def QuietFlag : String := "QUIET"

def CPUFlag : String := "CPU"

def StatsFlag : String := "STATS"

/-- Modelled from the spec: the process-wide `cmd.Flags` record (lib/cmd
is not under src/), with one field per session flag the SET FLAG
statement recognizes. -/
structure FlagSet where
  repository : String
  location : String
  datetimeFormat : List String
  waitTimeout : ℚ
  delimiter : String
  jsonQuery : String
  encoding : String
  noHeader : Bool
  withoutNull : Bool
  format : String
  writeEncoding : String
  writeDelimiter : String
  withoutHeader : Bool
  lineBreak : String
  encloseAll : Bool
  jsonEscape : String
  prettyPrint : Bool
  eastAsianEncoding : Bool
  countDiacriticalSign : Bool
  countFormatCode : Bool
  color : Bool
  quiet : Bool
  cpu : ℤ
  stats : Bool
deriving DecidableEq, Repr

/-- The validating setters of lib/cmd (not under src/), abstract: each
either stores a parsed form of its argument or rejects it with a
message. -/
structure CmdSetters where
  setRepository : String → FlagSet → Except String FlagSet
  setLocation : String → FlagSet → Except String FlagSet
  setDelimiter : String → FlagSet → Except String FlagSet
  setEncoding : String → FlagSet → Except String FlagSet
  setFormat : String → FlagSet → Except String FlagSet
  setWriteEncoding : String → FlagSet → Except String FlagSet
  setWriteDelimiter : String → FlagSet → Except String FlagSet
  setLineBreak : String → FlagSet → Except String FlagSet
  setJsonEscape : String → FlagSet → Except String FlagSet

/-- Errors `SetFlag` can return. -/
inductive SetFlagError where
  | invalidFlagName (name : String)
  | flagValueNotAllowedFormat
  | invalidFlagValue (msg : String)
deriving DecidableEq, Repr

/-- The flags whose first-switch case converts the value with `ToString`. -/
def stringFlagNames : List String :=
  [RepositoryFlag, TimezoneFlag, DatetimeFormatFlag, DelimiterFlag,
   JsonQueryFlag, EncodingFlag, WriteEncodingFlag, FormatFlag,
   WriteDelimiterFlag, LineBreakFlag, JsonEscape]

/-- The flags whose first-switch case converts the value with `ToBoolean`. -/
def boolFlagNames : List String :=
  [NoHeaderFlag, WithoutNullFlag, WithoutHeaderFlag, EncloseAll,
   PrettyPrintFlag, EastAsianEncodingFlag, CountDiacriticalSignFlag,
   CountFormatCodeFlag, ColorFlag, QuietFlag, StatsFlag]

/-- The first switch of `SetFlag`: convert the evaluated value to the
type the named flag requires; `none` for an unrecognized flag name. -/
def flagConv (nameU : String) (p : Value) : Option Value :=
  if nameU ∈ stringFlagNames then some (ToString p)
  else if nameU ∈ boolFlagNames then some (ToBoolean p)
  else if nameU = WaitTimeoutFlag then some (ToFloat p)
  else if nameU = CPUFlag then some (ToInteger p)
  else none

/-- Payload extractors for a converted, non-null value (the Go source
casts with `p.(value.String).Raw()` etc. at this point). -/
def rawString : Value → String
  | .str s => s
  | _ => ""

/-- Boolean payload. -/
def rawBool : Value → Bool
  | .boolean b => b
  | _ => false

/-- Float payload. -/
def rawFloat : Value → ℚ
  | .float (.finite q) => q
  | _ => 0

/-- Integer payload. -/
def rawInt : Value → ℤ
  | .integer i => i
  | _ => 0

/-- `SetFlag`: recognize the flag name, convert the evaluated value to
the required type, reject Null conversions, then store through the
matching setter.  Returns the (possibly updated) flags and an error. -/
def SetFlag (st : CmdSetters) (name : String) (p0 : Value)
    (flags : FlagSet) : FlagSet × Option SetFlagError :=
  let nameU := goToUpper name
  match flagConv nameU p0 with
  | none => (flags, some (.invalidFlagName name))
  | some p =>
    if IsNull p then (flags, some .flagValueNotAllowedFormat)
    else
      let fallible (r : Except String FlagSet) : FlagSet × Option SetFlagError :=
        match r with
        | .ok f' => (f', none)
        | .error m => (flags, some (.invalidFlagValue m))
      if nameU = RepositoryFlag then fallible (st.setRepository (rawString p) flags)
      else if nameU = TimezoneFlag then fallible (st.setLocation (rawString p) flags)
      else if nameU = DatetimeFormatFlag then
        ({ flags with datetimeFormat := flags.datetimeFormat ++ [rawString p] }, none)
      else if nameU = WaitTimeoutFlag then
        ({ flags with waitTimeout := rawFloat p }, none)
      else if nameU = DelimiterFlag then fallible (st.setDelimiter (rawString p) flags)
      else if nameU = JsonQueryFlag then
        ({ flags with jsonQuery := rawString p }, none)
      else if nameU = EncodingFlag then fallible (st.setEncoding (rawString p) flags)
      else if nameU = NoHeaderFlag then
        ({ flags with noHeader := rawBool p }, none)
      else if nameU = WithoutNullFlag then
        ({ flags with withoutNull := rawBool p }, none)
      else if nameU = FormatFlag then fallible (st.setFormat (rawString p) flags)
      else if nameU = WriteEncodingFlag then fallible (st.setWriteEncoding (rawString p) flags)
      else if nameU = WriteDelimiterFlag then fallible (st.setWriteDelimiter (rawString p) flags)
      else if nameU = WithoutHeaderFlag then
        ({ flags with withoutHeader := rawBool p }, none)
      else if nameU = LineBreakFlag then fallible (st.setLineBreak (rawString p) flags)
      else if nameU = EncloseAll then
        ({ flags with encloseAll := rawBool p }, none)
      else if nameU = JsonEscape then fallible (st.setJsonEscape (rawString p) flags)
      else if nameU = PrettyPrintFlag then
        ({ flags with prettyPrint := rawBool p }, none)
      else if nameU = EastAsianEncodingFlag then
        ({ flags with eastAsianEncoding := rawBool p }, none)
      else if nameU = CountDiacriticalSignFlag then
        ({ flags with countDiacriticalSign := rawBool p }, none)
      else if nameU = CountFormatCodeFlag then
        ({ flags with countFormatCode := rawBool p }, none)
      else if nameU = ColorFlag then
        ({ flags with color := rawBool p }, none)
      else if nameU = QuietFlag then
        ({ flags with quiet := rawBool p }, none)
      else if nameU = CPUFlag then
        ({ flags with cpu := rawInt p }, none)
      else if nameU = StatsFlag then
        ({ flags with stats := rawBool p }, none)
      else (flags, none)

/-! ### One-shot execution (src/lib/action/run.go, `Run`)

`Run` is embedded as a pure function from its external inputs -- the
parser outcome, the file-system facts it consults, and the procedure
execution outcome -- to the error it returns together with the ordered
list of side-effecting actions it performs.  `Rollback` and
`ReleaseResourcesWithErrors` are deferred in the source, so they are
appended on every return path, after any `Commit`. -/

/-- Modelled from the spec: `query.StatementFlow` (the procedure
dispatcher is not under src/).  `Run` compares the returned flow against
`query.Terminate`; the other control-flow verbs the spec names are the
remaining constructors. -/
inductive StatementFlow where
  | terminate
  | exit
  | breakFlow
  | continueFlow
  | returnFlow
deriving DecidableEq, Repr

/-- The side-effecting actions `Run` can take, in execution order. -/
inductive RunEvent where
  | createOutFile
  | executeStatements
  | commit
  | rollback
  | releaseResources
deriving DecidableEq, Repr

/-- Errors `Run` can return. -/
inductive RunError where
  | syntaxError (msg : String)
  | fileAlreadyExists (path : String)
  | createFailed (msg : String)
  | execError (msg : String)
deriving DecidableEq, Repr

/-- The external inputs of one `Run` call: the parser outcome on the
given source text, the file-system facts about the `-o` outfile, and the
procedure `Execute` outcome on the parsed statement list (statements are
opaque here). -/
structure RunInput where
  parse : Except String (List ℕ)
  outfile : String
  outfileExists : Bool
  createOk : Bool
  exec : List ℕ → StatementFlow × Option String

/-- The execution phase of `Run`: run the statements, commit exactly when
they returned no error with the `Terminate` flow, then let the deferred
rollback and resource release close the call. -/
def runExec (inp : RunInput) (evs : List RunEvent) (statements : List ℕ) :
    Option RunError × List RunEvent :=
  let (flow, err) := inp.exec statements
  let evs := evs ++ [.executeStatements]
  let evs := if err = none ∧ flow = .terminate then evs ++ [.commit] else evs
  (err.map .execError, evs ++ [.rollback, .releaseResources])

/-- `Run`: parse; if an outfile is named, refuse an existing file and
create it; execute via `runExec`.  (The deferred removal of a still-empty
outfile and the statistics display touch no pending transaction state and
are not modelled.) -/
def Run (inp : RunInput) : Option RunError × List RunEvent :=
  match inp.parse with
  | .error m => (some (.syntaxError m), [.rollback, .releaseResources])
  | .ok statements =>
    if 0 < inp.outfile.length then
      if inp.outfileExists then
        (some (.fileAlreadyExists inp.outfile), [.rollback, .releaseResources])
      else if ¬ inp.createOk then
        (some (.createFailed ""), [.rollback, .releaseResources])
      else runExec inp [.createOutFile] statements
    else runExec inp [] statements

/-! ## Theorems -/

instance {ε α : Type} [DecidableEq ε] [DecidableEq α] : DecidableEq (Except ε α)
  | .ok a, .ok b =>
    if h : a = b then .isTrue (by rw [h]) else .isFalse (by simp [h])
  | .ok _, .error _ => .isFalse (by simp)
  | .error _, .ok _ => .isFalse (by simp)
  | .error e, .error f =>
    if h : e = f then .isTrue (by rw [h]) else .isFalse (by simp [h])

/-- The wrapped start position of SUBSTR: a negative start counts back
from the end of the string. -/
def wrapStart (strlen : ℕ) (start : ℤ) : ℤ :=
  if start < 0 then (strlen : ℤ) + start else start

/-- A generator usable for concrete evaluations: the stdlib contract
fields are instantiated with constants. -/
def constGen : RandGen where
  float64 := 0
  float64_nonneg := le_refl 0
  float64_lt_one := by norm_num
  int63 := fun _ => 0
  int63_nonneg := fun _ _ => le_refl 0
  int63_lt := fun _ h => h

/-- C7: `TRUNC_HOUR` and `TRUNC_TIME` dispatch to the same implementation
`TruncTime`, which keeps the date and location of its datetime argument
and zeroes hours, minutes, seconds and nanoseconds; a Null argument
yields Null. -/
theorem trunc_hour_is_trunc_time :
    Functions "TRUNC_HOUR" = Functions "TRUNC_TIME" ∧
    Functions "TRUNC_TIME" = some TruncTime ∧
    (∀ (fname : String) (t : GoTime),
      TruncTime fname [.datetime t] =
        .ok (.datetime { year := t.year, month := t.month, day := t.day,
                         hour := 0, minute := 0, second := 0,
                         nanosecond := 0, loc := t.loc })) ∧
    (∀ fname : String, TruncTime fname [.null] = .ok .null) := by
  refine ⟨rfl, rfl, fun fname t => ?_, fun fname => rfl⟩
  simp [TruncTime, truncateDate, ToDatetime]

/-- C8: evaluation of `Rand` at the failing input `RAND(0, 2^63 - 1)`:
the bounds are ordinary int64 values with `low < high`, yet the 64-bit
computation `high - low + 1` wraps to `-2^63`, so `rand.Int63n` panics
instead of returning an integer in the range.  (The well-behaved parts of
the claim are also recorded: `RAND()` yields a float in `[0,1)` and a
reversed range is rejected.) -/
theorem rand_range_overflow_panics :
    Rand constGen "RAND" [.integer 0, .integer (2 ^ 63 - 1)] =
      .error (.panicked "invalid argument to Int63n") ∧
    (0 : ℤ) < 2 ^ 63 - 1 ∧
    (2 ^ 63 - 1 : ℤ) ≤ 2 ^ 63 - 1 ∧
    Rand constGen "RAND" [] = .ok (.float (.finite constGen.float64)) ∧
    (0 ≤ constGen.float64 ∧ constGen.float64 < 1) ∧
    Rand constGen "RAND" [.integer 5, .integer 5] =
      .error (.invalidArgument "RAND"
        "the second argument must be greater than the first argument") := by
  refine ⟨?_, by norm_num, le_refl _, rfl, ⟨constGen.float64_nonneg, constGen.float64_lt_one⟩, ?_⟩
  · show Rand constGen "RAND" [.integer 0, .integer (2 ^ 63 - 1)] = _
    norm_num [Rand, ToInteger, int63n, wrap64]
    rfl
  · norm_num [Rand, ToInteger]

/-- The branch structure of `round` on a finite float, rewritten as
half-away-from-zero rounding of the magnitude: scale by `10 ^ place`,
add a half to the magnitude, take the floor, restore the sign. -/
lemma round_finite_eq (q : ℚ) (place : ℤ) :
    round (.finite q) place =
      .finite ((if q < 0 then (-1 : ℚ) else 1) *
        ((⌊|q| * (10 : ℚ) ^ place + 1 / 2⌋ : ℤ) : ℚ) / (10 : ℚ) ^ place) := by
  have hP : ((10 : ℚ) ^ place) ≠ 0 := zpow_ne_zero _ (by norm_num)
  by_cases hq : q < 0
  · have habs : |q| = -q := abs_of_neg hq
    have hceil : (⌈(10 : ℚ) ^ place * q + -(1 / 2)⌉ : ℤ) =
        -⌊|q| * (10 : ℚ) ^ place + 1 / 2⌋ := by
      rw [show ((10 : ℚ) ^ place * q + -(1 / 2)) =
        -(|q| * (10 : ℚ) ^ place + 1 / 2) by rw [habs]; ring]
      rw [Int.ceil_neg]
    simp only [round, ltF, mulF, subF, addF, ceilF, floorF, divF, hq,
      decide_eq_true_eq, if_true, hP, if_false, ite_true, hceil]
    congr 1
    push_cast
    ring
  · have habs : |q| = q := abs_of_nonneg (not_lt.mp hq)
    have hfloor : (⌊(10 : ℚ) ^ place * q + 1 / 2⌋ : ℤ) =
        ⌊|q| * (10 : ℚ) ^ place + 1 / 2⌋ := by
      rw [habs, mul_comm]
    simp only [round, ltF, mulF, subF, addF, ceilF, floorF, divF, hq,
      decide_eq_true_eq, if_false, ite_false, hfloor]
    rw [if_neg hP]
    congr 1
    ring_nf

/-- `round` lands on a multiple of `10 ^ (-place)` within half a step of
the argument. -/
lemma round_within_half (q : ℚ) (place : ℤ) : ∃ k : ℤ,
    round (.finite q) place = .finite ((k : ℚ) / (10 : ℚ) ^ place) ∧
    |q * (10 : ℚ) ^ place - (k : ℚ)| ≤ 1 / 2 := by
  have hfl := Int.floor_le (|q| * (10 : ℚ) ^ place + 1 / 2)
  have hfl2 := Int.sub_one_lt_floor (|q| * (10 : ℚ) ^ place + 1 / 2)
  by_cases hq : q < 0
  · have habs : |q| = -q := abs_of_neg hq
    rw [habs] at hfl hfl2
    refine ⟨-⌊-q * (10 : ℚ) ^ place + 1 / 2⌋, ?_, ?_⟩
    · rw [round_finite_eq, if_pos hq, habs]
      congr 1
      push_cast
      ring
    · rw [abs_le]
      push_cast
      constructor <;> linarith
  · have habs : |q| = q := abs_of_nonneg (not_lt.mp hq)
    rw [habs] at hfl hfl2
    refine ⟨⌊q * (10 : ℚ) ^ place + 1 / 2⌋, ?_, ?_⟩
    · rw [round_finite_eq, if_neg hq, habs]
      congr 1
      ring
    · rw [abs_le]
      constructor <;> linarith

/-- C2: ROUND rounds half away from zero at the requested decimal place:
the spec's three examples hold; Null arguments propagate to Null; on any
finite float the helper `round` is exactly sign-restored half-up rounding
of the magnitude scaled by `10 ^ place`, every result is an integer
multiple of `10 ^ (-place)` within half a step of the argument, and
`Round` returns that value through `ParseFloat64`. -/
theorem round_half_away_from_zero :
    Round "ROUND" [.float (.finite (5 / 2))] = .ok (.integer 3) ∧
    Round "ROUND" [.float (.finite (-5 / 2))] = .ok (.integer (-3)) ∧
    Round "ROUND" [.float (.finite (43 / 20)), .integer 1] =
      .ok (.float (.finite (11 / 5))) ∧
    (∀ fname : String, Round fname [.null] = .ok .null) ∧
    (∀ (fname : String) (f : FloatV), Round fname [.float f, .null] = .ok .null) ∧
    (∀ (q : ℚ) (place : ℤ),
      round (.finite q) place =
        .finite ((if q < 0 then (-1 : ℚ) else 1) *
          ((⌊|q| * (10 : ℚ) ^ place + 1 / 2⌋ : ℤ) : ℚ) / (10 : ℚ) ^ place)) ∧
    (∀ (fname : String) (q : ℚ) (place : ℤ),
      Round fname [.float (.finite q), .integer place] =
        .ok (ParseFloat64 (round (.finite q) place))) ∧
    (∀ (q : ℚ) (place : ℤ), ∃ k : ℤ,
      round (.finite q) place = .finite ((k : ℚ) / (10 : ℚ) ^ place) ∧
      |q * (10 : ℚ) ^ place - (k : ℚ)| ≤ 1 / 2) := by
  refine ⟨?_, ?_, ?_, fun _ => rfl, fun _ _ => rfl, round_finite_eq, fun _ _ _ => rfl,
    round_within_half⟩
  · norm_num [Round, roundParams, ToFloat, round, ltF, mulF, addF, floorF, divF,
      ParseFloat64]
  · norm_num [Round, roundParams, ToFloat, round, ltF, mulF, addF, subF, ceilF, divF,
      ParseFloat64]
    rw [show ((-3 : ℚ)) = ((-3 : ℤ) : ℚ) by norm_num, Int.ceil_intCast]
  · norm_num [Round, roundParams, ToFloat, ToInteger, round, ltF, mulF, addF, floorF,
      divF, ParseFloat64]

/-- C5 counterexample: ROUND has no non-finite guard.  At the input
`Float NaN` the computed result `round NaN 0` is NaN, yet `Round` returns
it as a Float instead of the Null the claim promises; an infinite input
is likewise returned unchanged. -/
theorem round_nan_not_nulled :
    Round "ROUND" [.float .nan] = .ok (.float .nan) ∧
    nonFinite (round .nan 0) = true ∧
    Round "ROUND" [.float (.inf true)] = .ok (.float (.inf true)) := by
  refine ⟨rfl, rfl, ?_⟩
  norm_num [Round, roundParams, ToFloat, round, ltF, mulF, addF, floorF, divF,
    ParseFloat64]

/-- C5 (amended): the math built-ins implemented through `execMath1Arg`
and `execMath2Args` (ABS, ACOS, ASIN, ATAN, ATAN2, COS, SIN, TAN, EXP,
EXP2, EXPM1, LOG, LOG10, LOG2, LOG1P, SQRT, POW) yield Null on a Null
argument and collapse an infinite or NaN computed result to Null, for
every standard-library function they wrap; CEIL, FLOOR and ROUND
propagate Null arguments but have no such guard.  `Abs` is the wrapper
applied to the absolute-value function, as each listed built-in is in the
source. -/
theorem math_builtin_nonfinite_guard :
    (∀ (fname : String) (mathf : FloatV → FloatV),
      execMath1Arg fname [.null] mathf = .ok .null) ∧
    (∀ (fname : String) (mathf : FloatV → FloatV) (v : Value) (f : FloatV),
      ToFloat v = .float f → nonFinite (mathf f) = true →
      execMath1Arg fname [v] mathf = .ok .null) ∧
    (∀ (fname : String) (mathf : FloatV → FloatV → FloatV) (v w : Value)
      (f g : FloatV), ToFloat v = .float f → ToFloat w = .float g →
      nonFinite (mathf f g) = true →
      execMath2Args fname [v, w] mathf = .ok .null) ∧
    (∀ (fname : String) (mathf : FloatV → FloatV → FloatV),
      execMath2Args fname [.null, .null] mathf = .ok .null ∧
      ∀ f : FloatV, execMath2Args fname [.float f, .null] mathf = .ok .null) ∧
    (∀ fname : String, Ceil fname [.null] = .ok .null ∧
      Floor fname [.null] = .ok .null ∧ Round fname [.null] = .ok .null) ∧
    (∀ (fname : String) (args : List Value),
      Abs fname args = execMath1Arg fname args absF) ∧
    (∀ (fname : String) (p : Bool),
      Round fname [.float (.inf p)] = .ok (.float (.inf p))) := by
  refine ⟨fun _ _ => rfl, ?_, ?_, fun _ _ => ⟨rfl, fun _ => rfl⟩,
    fun _ => ⟨rfl, rfl, rfl⟩, fun _ _ => rfl, ?_⟩
  · intro fname mathf v f h1 h2
    simp only [execMath1Arg, h1, h2, if_true]
  · intro fname mathf v w f g h1 h2 h3
    simp only [execMath2Args, h1, h2, h3, if_true]
  · intro fname p
    cases p <;>
      norm_num [Round, roundParams, ToFloat, round, ltF, mulF, addF, subF, ceilF,
        floorF, divF, ParseFloat64]

/-- C5 amended-claim witness: the non-finite guard fires on a concrete
call (the wrapped function returns negative infinity, as `math.Log` does
at zero, and the built-in yields Null). -/
theorem math_builtin_nonfinite_guard_witness :
    execMath1Arg "LOG" [.float (.finite 0)] (fun _ => .inf false) = .ok .null :=
  math_builtin_nonfinite_guard.2.1 "LOG" (fun _ => .inf false)
    (.float (.finite 0)) (.finite 0) rfl rfl

/-- What `runExec` guarantees: it commits exactly when the procedure
returned no error with the `Terminate` flow, the deferred rollback and
resource release close the event list, and the returned error is the
execution error. -/
lemma runExec_spec (inp : RunInput) (evs : List RunEvent) (statements : List ℕ) :
    (RunEvent.commit ∈ (runExec inp evs statements).2 ↔
      RunEvent.commit ∈ evs ∨ inp.exec statements = (.terminate, none)) ∧
    (∃ evs₀, (runExec inp evs statements).2 =
      evs₀ ++ [RunEvent.rollback, RunEvent.releaseResources]) ∧
    (runExec inp evs statements).1 = (inp.exec statements).2.map .execError := by
  rcases hfe : inp.exec statements with ⟨flow, err⟩
  refine ⟨?_, ?_, ?_⟩
  · by_cases hc : err = none ∧ flow = StatementFlow.terminate
    · obtain ⟨h1, h2⟩ := hc
      subst h1 h2
      simp [runExec, hfe]
    · simp only [runExec, hfe, if_neg hc, List.mem_append, List.mem_singleton,
        List.mem_cons, List.not_mem_nil, or_false, Prod.mk.injEq]
      constructor
      · rintro ((h | h) | h)
        · exact Or.inl h
        · cases h
        · rcases h with h | h
          · cases h
          · cases h
      · rintro (h | ⟨h1, h2⟩)
        · exact Or.inl (Or.inl h)
        · exact absurd ⟨h2, h1⟩ hc
  · simp only [runExec, hfe]
    exact ⟨_, rfl⟩
  · simp only [runExec, hfe]

/-- C1: `Run` invokes `Commit` if and only if the source parsed, the
outfile stage passed, and executing the statement list returned no error
with the `Terminate` flow; the deferred `Rollback` (with the resource
release) closes every return path; and whenever `Run` returns an error,
no commit happened. -/
theorem run_commits_iff_clean_terminate (inp : RunInput) :
    (RunEvent.commit ∈ (Run inp).2 ↔
      ∃ stmts, inp.parse = .ok stmts ∧
        (inp.outfile.length = 0 ∨
          (inp.outfileExists = false ∧ inp.createOk = true)) ∧
        inp.exec stmts = (.terminate, none)) ∧
    (∃ evs₀, (Run inp).2 = evs₀ ++ [RunEvent.rollback, RunEvent.releaseResources]) ∧
    (∀ e, (Run inp).1 = some e → RunEvent.commit ∉ (Run inp).2) := by
  rcases hp : inp.parse with m | stmts
  · refine ⟨?_, ⟨[], by simp [Run, hp]⟩, ?_⟩
    · simp [Run, hp]
    · intro e _
      simp [Run, hp]
  · by_cases ho : 0 < inp.outfile.length
    · cases hex : inp.outfileExists
      · cases hco : inp.createOk
        · have hrun : Run inp = (some (.createFailed ""),
              [RunEvent.rollback, RunEvent.releaseResources]) := by
            simp [Run, hp, ho, hex, hco]
          refine ⟨?_, ⟨[], by rw [hrun]; rfl⟩, ?_⟩
          · rw [hrun]
            simp [hex, hco, Nat.pos_iff_ne_zero.mp ho]
          · intro e _
            rw [hrun]
            simp
        · have hrun : Run inp = runExec inp [.createOutFile] stmts := by
            simp [Run, hp, ho, hex, hco]
          obtain ⟨hmem, hevs, hres⟩ := runExec_spec inp [.createOutFile] stmts
          rw [hrun]
          refine ⟨?_, hevs, ?_⟩
          · rw [hmem]
            simp [hex, hco, Nat.pos_iff_ne_zero.mp ho, hp]
          · intro e he
            rw [hres] at he
            rw [hmem]
            rintro (h | h)
            · simp at h
            · rw [h] at he
              simp at he
      · have hrun : Run inp = (some (.fileAlreadyExists inp.outfile),
            [RunEvent.rollback, RunEvent.releaseResources]) := by
          simp [Run, hp, ho, hex]
        refine ⟨?_, ⟨[], by rw [hrun]; rfl⟩, ?_⟩
        · rw [hrun]
          simp [hex, Nat.pos_iff_ne_zero.mp ho]
        · intro e _
          rw [hrun]
          simp
    · have hrun : Run inp = runExec inp [] stmts := by
        simp [Run, hp, ho]
      obtain ⟨hmem, hevs, hres⟩ := runExec_spec inp [] stmts
      rw [hrun]
      refine ⟨?_, hevs, ?_⟩
      · rw [hmem]
        have hlen : inp.outfile.length = 0 := by omega
        simp [hlen, hp]
      · intro e he
        rw [hres] at he
        rw [hmem]
        rintro (h | h)
        · simp at h
        · rw [h] at he
          simp at he

/-- A concrete one-shot run whose statement execution fails. -/
def runInputExecFails : RunInput where
  parse := .ok [1]
  outfile := ""
  outfileExists := false
  createOk := true
  exec := fun _ => (.terminate, some "boom")

/-- C1 witness: on a concrete run whose execution errors, `Run` performed
no commit. -/
theorem run_commits_iff_clean_terminate_witness :
    RunEvent.commit ∉ (Run runInputExecFails).2 :=
  (run_commits_iff_clean_terminate runInputExecFails).2.2 (.execError "boom") rfl

/-- Does the returned error report an already-existing outfile? -/
def isFileAlreadyExists : Option RunError → Bool
  | some (.fileAlreadyExists _) => true
  | _ => false

/-- A call of `Run` whose input does not parse while its outfile already
exists. -/
def runInputParseFails : RunInput where
  parse := .error "syntax error near SELEC"
  outfile := "out.csv"
  outfileExists := true
  createOk := true
  exec := fun _ => (.terminate, none)

/-- C10 counterexample: `Run` checks the outfile only after a successful
parse, so a call with a non-empty outfile naming an existing file returns
the syntax error -- not the promised 'file already exists' error -- when
the input does not parse. -/
theorem run_outfile_check_after_parse :
    (Run runInputParseFails).1 = some (.syntaxError "syntax error near SELEC") ∧
    0 < runInputParseFails.outfile.length ∧
    runInputParseFails.outfileExists = true ∧
    isFileAlreadyExists (Run runInputParseFails).1 = false :=
  ⟨rfl, by decide, rfl, rfl⟩

/-- C10 (amended): for every call of `Run` whose input parses and whose
non-empty outfile names an existing file, `Run` returns the 'file already
exists' error and performs only the deferred rollback and resource
release: no file creation, no statement execution, no commit. -/
theorem run_existing_outfile_refused (inp : RunInput) (stmts : List ℕ)
    (hp : inp.parse = .ok stmts) (ho : 0 < inp.outfile.length)
    (hex : inp.outfileExists = true) :
    (Run inp).1 = some (.fileAlreadyExists inp.outfile) ∧
    (Run inp).2 = [RunEvent.rollback, RunEvent.releaseResources] := by
  simp [Run, hp, ho, hex]

/-- A call of `Run` with parsing input and an existing outfile. -/
def runInputOutfileExists : RunInput where
  parse := .ok [1]
  outfile := "out.csv"
  outfileExists := true
  createOk := true
  exec := fun _ => (.terminate, none)

/-- C10 amended-claim witness: the refusal fires on a concrete call. -/
theorem run_existing_outfile_refused_witness :
    (Run runInputOutfileExists).1 = some (.fileAlreadyExists "out.csv") ∧
    (Run runInputOutfileExists).2 =
      [RunEvent.rollback, RunEvent.releaseResources] :=
  run_existing_outfile_refused runInputOutfileExists [1] rfl (by decide) rfl

/-- C3: SUBSTR indexes by runes; a negative start wraps from the end
(`SUBSTR("abcde", -2) = "de"`); a wrapped start outside the string or a
negative length yields Null; in range, the result is the rune suffix from
the wrapped start, truncated to the requested length; Null arguments
yield Null. -/
theorem substr_rune_indexed :
    Substr "SUBSTR" [.str "abcde", .integer (-2)] = .ok (.str "de") ∧
    (∀ (s : String) (start : ℤ),
      (wrapStart s.toList.length start < 0 ∨
        (s.toList.length : ℤ) ≤ wrapStart s.toList.length start) →
      Substr "SUBSTR" [.str s, .integer start] = .ok .null) ∧
    (∀ (s : String) (start : ℤ),
      0 ≤ wrapStart s.toList.length start →
      wrapStart s.toList.length start < (s.toList.length : ℤ) →
      Substr "SUBSTR" [.str s, .integer start] =
        .ok (.str (String.mk
          (s.toList.drop (wrapStart s.toList.length start).toNat)))) ∧
    (∀ (s : String) (start l : ℤ),
      0 ≤ wrapStart s.toList.length start →
      wrapStart s.toList.length start < (s.toList.length : ℤ) → l < 0 →
      Substr "SUBSTR" [.str s, .integer start, .integer l] = .ok .null) ∧
    (∀ (s : String) (start l : ℤ),
      0 ≤ wrapStart s.toList.length start →
      wrapStart s.toList.length start < (s.toList.length : ℤ) → 0 ≤ l →
      Substr "SUBSTR" [.str s, .integer start, .integer l] =
        .ok (.str (String.mk
          ((s.toList.drop (wrapStart s.toList.length start).toNat).take l.toNat)))) ∧
    Substr "SUBSTR" [.null, .integer 0] = .ok .null ∧
    (∀ s : String, Substr "SUBSTR" [.str s, .null] = .ok .null) := by
  refine ⟨by decide, ?_, ?_, ?_, ?_, rfl, fun s => rfl⟩
  · intro s start h
    by_cases hs : start < 0 <;>
      · simp only [wrapStart, hs, ite_true, ite_false, false_or] at h
        simp only [Substr, ToString, ToInteger, List.length_cons, List.length_nil]
        rw [if_neg (by decide)]
        simp only [hs, ite_true, ite_false, false_or]
        split_ifs
        all_goals rfl
  · intro s start h1 h2
    by_cases hs : start < 0 <;>
      · simp only [wrapStart, hs, ite_true, ite_false] at h1 h2 ⊢
        simp only [Substr, ToString, ToInteger, List.length_cons, List.length_nil]
        rw [if_neg (by decide)]
        simp only [hs, ite_true, ite_false, false_or]
        split_ifs <;> first | rfl | (exfalso; omega)
  · intro s start l h1 h2 hl
    by_cases hs : start < 0 <;>
      · simp only [wrapStart, hs, ite_true, ite_false] at h1 h2
        simp only [Substr, ToString, ToInteger, List.length_cons, List.length_nil]
        rw [if_neg (by decide)]
        simp only [hs, ite_true, ite_false, false_or]
        split_ifs
        all_goals rfl
  · intro s start l h1 h2 hl
    by_cases hs : start < 0 <;>
      · simp only [wrapStart, hs, ite_true, ite_false] at h1 h2 ⊢
        simp only [Substr, ToString, ToInteger, List.length_cons, List.length_nil]
        rw [if_neg (by decide)]
        simp only [hs, ite_true, ite_false, false_or]
        split_ifs <;>
          first
          | rfl
          | (exfalso; omega)
          | (congr 3
             rw [List.take_eq_take]
             simp only [List.length_drop]
             omega)

/-- C3 witness: the theorem applied at concrete inputs -- an out-of-range
start on "abcde" yields Null, and an in-range call with a length yields
the rune slice. -/
theorem substr_rune_indexed_witness :
    Substr "SUBSTR" [.str "abcde", .integer 7] = .ok .null ∧
    Substr "SUBSTR" [.str "abcde", .integer 1, .integer 2] = .ok (.str "bc") := by
  constructor
  · exact substr_rune_indexed.2.1 "abcde" 7 (by decide)
  · have h := substr_rune_indexed.2.2.2.2.1 "abcde" 1 2 (by decide) (by decide)
      (by decide)
    rw [h]
    rfl

/-- One unfolding step of `goIndex`. -/
lemma goIndex_eq (s sub : List Char) :
    goIndex s sub =
      if sub.isPrefixOf s then some 0
      else
        match s with
        | [] => none
        | c :: rest => (goIndex rest sub).map (c.utf8Size + ·) := by
  rw [goIndex.eq_def]

/-- A found index is the UTF-8 byte length of the rune prefix before the
first rune position at which the needle occurs. -/
lemma goIndex_some_spec (sub : List Char) :
    ∀ (s : List Char) (n : ℕ), goIndex s sub = some n →
      ∃ k, sub.isPrefixOf (s.drop k) ∧ n = utf8Len (s.take k) ∧
        ∀ j < k, ¬ sub.isPrefixOf (s.drop j) := by
  intro s
  induction s with
  | nil =>
    intro n h
    rw [goIndex_eq] at h
    by_cases hp : sub.isPrefixOf ([] : List Char)
    · rw [if_pos hp] at h
      exact ⟨0, hp, by simp [utf8Len, Option.some.injEq] at h ⊢; omega, by omega⟩
    · rw [if_neg hp] at h
      cases h
  | cons c rest ih =>
    intro n h
    rw [goIndex_eq] at h
    by_cases hp : sub.isPrefixOf (c :: rest)
    · rw [if_pos hp] at h
      refine ⟨0, hp, ?_, by omega⟩
      simp [utf8Len] at h ⊢
      omega
    · rw [if_neg hp] at h
      simp only [Option.map_eq_some'] at h
      obtain ⟨m, hm, hn⟩ := h
      obtain ⟨k', hk1, hk2, hk3⟩ := ih m hm
      refine ⟨k' + 1, by simpa using hk1, ?_, ?_⟩
      · subst hn hk2
        simp [utf8Len]
      · intro j hj
        match j with
        | 0 => exact hp
        | j' + 1 => exact hk3 j' (by omega)

/-- `goIndex` returns `none` exactly when the needle occurs nowhere. -/
lemma goIndex_none_spec (sub : List Char) :
    ∀ s : List Char, goIndex s sub = none → ∀ k, ¬ sub.isPrefixOf (s.drop k) := by
  intro s
  induction s with
  | nil =>
    intro h k
    rw [goIndex_eq] at h
    by_cases hp : sub.isPrefixOf ([] : List Char)
    · rw [if_pos hp] at h
      cases h
    · rw [if_neg hp] at h
      rw [List.drop_nil]
      exact hp
  | cons c rest ih =>
    intro h k
    rw [goIndex_eq] at h
    by_cases hp : sub.isPrefixOf (c :: rest)
    · rw [if_pos hp] at h
      cases h
    · rw [if_neg hp] at h
      simp only [Option.map_eq_none'] at h
      match k with
      | 0 => exact hp
      | k' + 1 => exact ih h k'

/-- C6: INSTR returns the 0-based byte offset -- not the rune offset --
of the first occurrence of the needle: a returned integer is the UTF-8
byte length of the rune prefix before the first occurrence; no occurrence
yields Null, an occurrence guarantees an integer result, and Null
arguments yield Null.  `INSTR("αb", "b") = 2` although "b" is the second
rune. -/
theorem instr_byte_offset :
    (∀ (s sub : String) (n : ℤ),
      Instr "INSTR" [.str s, .str sub] = .ok (.integer n) →
      ∃ k, sub.toList.isPrefixOf (s.toList.drop k) ∧
        n = utf8Len (s.toList.take k) ∧
        ∀ j < k, ¬ sub.toList.isPrefixOf (s.toList.drop j)) ∧
    (∀ s sub : String,
      (∀ k, ¬ sub.toList.isPrefixOf (s.toList.drop k)) →
      Instr "INSTR" [.str s, .str sub] = .ok .null) ∧
    (∀ (s sub : String) (k : ℕ), sub.toList.isPrefixOf (s.toList.drop k) →
      ∃ n : ℕ, Instr "INSTR" [.str s, .str sub] = .ok (.integer n)) ∧
    Instr "INSTR" [.str "αb", .str "b"] = .ok (.integer 2) ∧
    (∀ sub : String, Instr "INSTR" [.null, .str sub] = .ok .null) ∧
    (∀ s : String, Instr "INSTR" [.str s, .null] = .ok .null) := by
  refine ⟨?_, ?_, ?_, by decide, fun _ => rfl, fun _ => rfl⟩
  · intro s sub n h
    simp only [Instr, ToString] at h
    rcases hgi : goIndex s.toList sub.toList with _ | m
    · rw [hgi] at h
      cases h
    · rw [hgi] at h
      obtain ⟨k, hk1, hk2, hk3⟩ := goIndex_some_spec sub.toList s.toList m hgi
      refine ⟨k, hk1, ?_, hk3⟩
      simp only [Except.ok.injEq, Value.integer.injEq] at h
      omega
  · intro s sub hnone
    simp only [Instr, ToString]
    rcases hgi : goIndex s.toList sub.toList with _ | m
    · rfl
    · obtain ⟨k, hk1, _, _⟩ := goIndex_some_spec sub.toList s.toList m hgi
      exact absurd hk1 (hnone k)
  · intro s sub k hk
    simp only [Instr, ToString]
    rcases hgi : goIndex s.toList sub.toList with _ | m
    · exact absurd hk (goIndex_none_spec sub.toList s.toList hgi k)
    · exact ⟨m, rfl⟩

/-- C6 witness: the theorem applied at a concrete input -- "cd" occurs
nowhere in "abc", so INSTR yields Null. -/
theorem instr_byte_offset_witness :
    Instr "INSTR" [.str "abc", .str "cd"] = .ok .null :=
  instr_byte_offset.2.1 "abc" "cd" (fun k => by
    match k with
    | 0 => decide
    | 1 => decide
    | 2 => decide
    | n + 3 =>
      intro hpre
      have hdrop : List.drop (n + 3) "abc".toList = [] := by
        apply List.drop_eq_nil_of_le
        have hlen : "abc".toList.length = 3 := rfl
        omega
      rw [hdrop] at hpre
      exact absurd hpre (by decide))

/-- C9: SetFlag is atomic on its own errors: an unrecognized flag name
reports an invalid-flag-name error, and a value whose conversion to the
flag's required type yields Null reports a value-format error; in both
cases the flags are returned unchanged, whatever the setters do. -/
theorem setflag_atomic_on_errors :
    (∀ (st : CmdSetters) (name : String) (p : Value) (flags : FlagSet),
      flagConv (goToUpper name) p = none →
      SetFlag st name p flags = (flags, some (.invalidFlagName name))) ∧
    (∀ (st : CmdSetters) (name : String) (p p' : Value) (flags : FlagSet),
      flagConv (goToUpper name) p = some p' → IsNull p' = true →
      SetFlag st name p flags = (flags, some .flagValueNotAllowedFormat)) := by
  constructor
  · intro st name p flags h
    simp only [SetFlag, h]
  · intro st name p p' flags h1 h2
    simp only [SetFlag, h1, h2, if_true]

/-- Setters that accept everything; only used to instantiate witnesses. -/
def acceptAllSetters : CmdSetters where
  setRepository := fun _ f => .ok f
  setLocation := fun _ f => .ok f
  setDelimiter := fun _ f => .ok f
  setEncoding := fun _ f => .ok f
  setFormat := fun _ f => .ok f
  setWriteEncoding := fun _ f => .ok f
  setWriteDelimiter := fun _ f => .ok f
  setLineBreak := fun _ f => .ok f
  setJsonEscape := fun _ f => .ok f

/-- The session flag defaults the spec's command catalogue names. -/
def defaultFlags : FlagSet where
  repository := ""
  location := "Local"
  datetimeFormat := []
  waitTimeout := 10
  delimiter := ","
  jsonQuery := ""
  encoding := "UTF8"
  noHeader := false
  withoutNull := false
  format := "TEXT"
  writeEncoding := "UTF8"
  writeDelimiter := ","
  withoutHeader := false
  lineBreak := "LF"
  encloseAll := false
  jsonEscape := "BACKSLASH"
  prettyPrint := false
  eastAsianEncoding := false
  countDiacriticalSign := false
  countFormatCode := false
  color := false
  quiet := false
  cpu := 1
  stats := false

/-- C9 witness: at concrete inputs, an unknown flag name and a CPU value
that does not convert to an integer both error and leave the flags
untouched. -/
theorem setflag_atomic_on_errors_witness :
    SetFlag acceptAllSetters "NOT_A_FLAG" (.str "x") defaultFlags =
      (defaultFlags, some (.invalidFlagName "NOT_A_FLAG")) ∧
    SetFlag acceptAllSetters "CPU" (.boolean true) defaultFlags =
      (defaultFlags, some .flagValueNotAllowedFormat) :=
  ⟨setflag_atomic_on_errors.1 acceptAllSetters "NOT_A_FLAG" (.str "x")
      defaultFlags rfl,
   setflag_atomic_on_errors.2 acceptAllSetters "CPU" (.boolean true) .null
      defaultFlags rfl rfl⟩


/-- The truncation loop either stops with the accumulated size exactly at
the target, or consumes its whole input while staying under it. -/
lemma padLoop_sum (sz : Char → ℕ) (target : ℕ) :
    ∀ (rest : List Char) (l : ℕ) (out : List Char), l < target →
      padLoop sz target l rest = .ok out →
      l + (out.map sz).sum = target ∨
        (out = rest ∧ l + (rest.map sz).sum < target) := by
  intro rest
  induction rest with
  | nil =>
    intro l out hl h
    simp only [padLoop] at h
    cases h
    right
    exact ⟨rfl, by simpa using hl⟩
  | cons c rest ih =>
    intro l out hl h
    simp only [padLoop] at h
    by_cases h1 : l + sz c = target
    · rw [if_pos h1] at h
      cases h
      left
      simpa using h1
    · rw [if_neg h1] at h
      by_cases h2 : target < l + sz c
      · rw [if_pos h2] at h
        cases h
      · rw [if_neg h2] at h
        rcases hrec : padLoop sz target (l + sz c) rest with e | out'
        · rw [hrec] at h
          cases h
        · rw [hrec] at h
          simp only [Except.map, Except.ok.injEq] at h
          subst h
          rcases ih (l + sz c) out' (by omega) hrec with h3 | ⟨h4, h5⟩
          · left
            simp only [List.map_cons, List.sum_cons]
            omega
          · right
            subst h4
            refine ⟨rfl, ?_⟩
            simp only [List.map_cons, List.sum_cons] at h5 ⊢
            omega

/-- Total per-rune size of `n` repetitions of a pad string. -/
lemma sum_map_flatten_replicate (sz : Char → ℕ) (n : ℕ) (l : List Char) :
    (((List.replicate n l).flatten).map sz).sum = n * (l.map sz).sum := by
  induction n with
  | zero => simp
  | succ n ih =>
    simp only [List.replicate_succ, List.flatten_cons, List.map_append,
      List.sum_append, ih]
    ring

/-- Rune count of `n` repetitions of a pad string. -/
lemma length_flatten_replicate {α : Type} (n : ℕ) (l : List α) :
    ((List.replicate n l).flatten).length = n * l.length := by
  induction n with
  | zero => simp
  | succ n ih =>
    simp only [List.replicate_succ, List.flatten_cons, List.length_append, ih]
    ring

/-- Ceiling division covers the target: `a <= ceil(a/p) * p`. -/
lemma le_ceil_mul (a p : ℕ) (hp : 0 < p) : a ≤ ((a + p - 1) / p) * p := by
  rcases Nat.eq_zero_or_pos a with rfl | ha
  · simp
  · have h1 : (a + p - 1) / p = (a - 1) / p + 1 := by
      rw [show a + p - 1 = (a - 1) + p by omega, Nat.add_div_right _ hp]
    have h3 := Nat.div_add_mod (a - 1) p
    have h4 := Nat.mod_lt (a - 1) hp
    rw [h1, show ((a - 1) / p + 1) * p = p * ((a - 1) / p) + p from by ring]
    omega

/-- When the repeated pad is at least as large as the target, a
successful truncation hits the target exactly. -/
lemma padLoop_exact (sz : Char → ℕ) (target : ℕ) (repeated : List Char)
    (htp : 0 < target) (hle : target ≤ (repeated.map sz).sum) :
    ∀ buf, padLoop sz target 0 repeated = .ok buf → (buf.map sz).sum = target := by
  intro buf h
  rcases padLoop_sum sz target repeated 0 buf htp h with h1 | ⟨h2, h3⟩
  · omega
  · subst h2
    omega

/-- C4 (amended): for non-null inputs with a pad of positive metric
length, LPAD/RPAD return the input unchanged when its metric length
reaches the target; otherwise, under the LEN metric the result's rune
count always equals the target, and under the BYTE or WIDTH metric the
result's metric length equals the target unless the pad cannot be cut at
exactly the needed amount, in which case a function-invalid-argument
error is raised (splitting a multi-byte character's bytes, or a wide
character's columns -- not only the BYTE case the claim names).  `Lpad`
and `Rpad` are `execStringsPadding` at the modelled codecs with the two
directions. -/
theorem padding_metric (byteSizeOf : Encoding → Char → ℕ) (runeWidthOf : Char → ℕ)
    (dir : Direction) (fname s pad : String) (tgt : ℤ) (tyName : String)
    (pt : PaddingType)
    (hty : (tyName = "LEN" ∧ pt = .runeCount) ∨
           (tyName = "BYTE" ∧ pt = .byteCount) ∨
           (tyName = "WIDTH" ∧ pt = .widthCount))
    (hpad : 0 < strMetric pt (byteSizeOf .utf8) runeWidthOf pad.toList) :
    (tgt ≤ (strMetric pt (byteSizeOf .utf8) runeWidthOf s.toList : ℤ) →
      execStringsPadding byteSizeOf runeWidthOf fname
        [.str s, .integer tgt, .str pad, .str tyName] dir = .ok (.str s)) ∧
    ((strMetric pt (byteSizeOf .utf8) runeWidthOf s.toList : ℤ) < tgt →
      (∃ r : String,
        execStringsPadding byteSizeOf runeWidthOf fname
          [.str s, .integer tgt, .str pad, .str tyName] dir = .ok (.str r) ∧
        (strMetric pt (byteSizeOf .utf8) runeWidthOf r.toList : ℤ) = tgt) ∨
      (pt ≠ .runeCount ∧
        execStringsPadding byteSizeOf runeWidthOf fname
          [.str s, .integer tgt, .str pad, .str tyName] dir =
          .error (.invalidArgument fname
            "cannot split pad string in a byte array of a character"))) := by
  have hmk : ∀ l : List Char, (String.mk l).toList = l := fun _ => rfl
  rcases hty with ⟨hn, hp⟩ | ⟨hn, hp⟩ | ⟨hn, hp⟩ <;> subst hn hp
  · constructor
    · intro hle
      simp only [execStringsPadding, ToString, ToInteger, List.length_cons,
        List.length_nil, List.head?_cons, List.head?_nil, List.drop_succ_cons,
        List.drop_nil, List.drop_zero, bind, Except.bind, pure, Except.pure,
        show goToUpper "LEN" = "LEN" from rfl]
      rw [if_neg (by decide), if_pos hle]
    · intro hlt
      simp only [execStringsPadding, ToString, ToInteger, List.length_cons,
        List.length_nil, List.head?_cons, List.head?_nil, List.drop_succ_cons,
        List.drop_nil, List.drop_zero, bind, Except.bind, pure, Except.pure,
        show goToUpper "LEN" = "LEN" from rfl]
      rw [if_neg (by decide), if_neg (by omega)]
      left
      have hpadlen : strMetric PaddingType.runeCount (byteSizeOf Encoding.utf8)
          runeWidthOf pad.toList = pad.toList.length := rfl
      rw [hpadlen] at hpad
      have hrep := le_ceil_mul
        ((tgt - (strMetric PaddingType.runeCount (byteSizeOf Encoding.utf8)
          runeWidthOf s.toList : ℕ) : ℤ)).toNat pad.toList.length hpad
      have hlen := length_flatten_replicate
        ((((tgt - (strMetric PaddingType.runeCount (byteSizeOf Encoding.utf8)
          runeWidthOf s.toList : ℕ) : ℤ)).toNat + pad.toList.length - 1) /
          pad.toList.length) pad.toList
      cases dir <;>
        · refine ⟨_, rfl, ?_⟩
          simp only [hmk, strMetric, List.length_append, List.length_take]
          simp only [strMetric, String.toList] at hrep hlt hlen hpad ⊢
          omega
  · constructor
    · intro hle
      simp only [execStringsPadding, ToString, ToInteger, List.length_cons,
        List.length_nil, List.head?_cons, List.head?_nil, List.drop_succ_cons,
        List.drop_nil, List.drop_zero, bind, Except.bind, pure, Except.pure,
        show goToUpper "BYTE" = "BYTE" from rfl]
      rw [if_neg (by decide), if_pos hle]
    · intro hlt
      simp only [execStringsPadding, ToString, ToInteger, List.length_cons,
        List.length_nil, List.head?_cons, List.head?_nil, List.drop_succ_cons,
        List.drop_nil, List.drop_zero, bind, Except.bind, pure, Except.pure,
        show goToUpper "BYTE" = "BYTE" from rfl]
      rw [if_neg (by decide), if_neg (by omega)]
      have hsumP : strMetric PaddingType.byteCount (byteSizeOf Encoding.utf8)
          runeWidthOf pad.toList = (pad.toList.map (byteSizeOf Encoding.utf8)).sum := rfl
      have hsumS : strMetric PaddingType.byteCount (byteSizeOf Encoding.utf8)
          runeWidthOf s.toList = (s.toList.map (byteSizeOf Encoding.utf8)).sum := rfl
      set padLen := (tgt - (strMetric PaddingType.byteCount (byteSizeOf Encoding.utf8)
        runeWidthOf s.toList : ℕ) : ℤ).toNat with hPadLen
      set rep := (padLen + strMetric PaddingType.byteCount (byteSizeOf Encoding.utf8)
        runeWidthOf pad.toList - 1) / strMetric PaddingType.byteCount
        (byteSizeOf Encoding.utf8) runeWidthOf pad.toList with hRep
      set repeated := (List.replicate rep pad.toList).flatten with hRept
      have htp : 0 < padLen := by
        rw [hPadLen]
        omega
      have hge : padLen ≤ (repeated.map (byteSizeOf Encoding.utf8)).sum := by
        rw [hRept, sum_map_flatten_replicate, hRep, hsumP]
        rw [hsumP] at hpad
        exact le_ceil_mul padLen _ hpad
      rcases hloop : padLoop (byteSizeOf Encoding.utf8) padLen 0 repeated with e | buf
      · exact Or.inr ⟨by decide, rfl⟩
      · have hbufsum := padLoop_exact (byteSizeOf Encoding.utf8) padLen repeated
          htp hge buf hloop
        left
        cases dir <;>
          · refine ⟨_, rfl, ?_⟩
            simp only [hmk, strMetric, List.map_append, List.sum_append]
            simp only [strMetric, String.toList] at hbufsum hPadLen hlt ⊢
            omega
  · constructor
    · intro hle
      simp only [execStringsPadding, ToString, ToInteger, List.length_cons,
        List.length_nil, List.head?_cons, List.head?_nil, List.drop_succ_cons,
        List.drop_nil, List.drop_zero, bind, Except.bind, pure, Except.pure,
        show goToUpper "WIDTH" = "WIDTH" from rfl]
      rw [if_neg (by decide), if_pos hle]
    · intro hlt
      simp only [execStringsPadding, ToString, ToInteger, List.length_cons,
        List.length_nil, List.head?_cons, List.head?_nil, List.drop_succ_cons,
        List.drop_nil, List.drop_zero, bind, Except.bind, pure, Except.pure,
        show goToUpper "WIDTH" = "WIDTH" from rfl]
      rw [if_neg (by decide), if_neg (by omega)]
      have hsumP : strMetric PaddingType.widthCount (byteSizeOf Encoding.utf8)
          runeWidthOf pad.toList = (pad.toList.map runeWidthOf).sum := rfl
      set padLen := (tgt - (strMetric PaddingType.widthCount (byteSizeOf Encoding.utf8)
        runeWidthOf s.toList : ℕ) : ℤ).toNat with hPadLen
      set rep := (padLen + strMetric PaddingType.widthCount (byteSizeOf Encoding.utf8)
        runeWidthOf pad.toList - 1) / strMetric PaddingType.widthCount
        (byteSizeOf Encoding.utf8) runeWidthOf pad.toList with hRep
      set repeated := (List.replicate rep pad.toList).flatten with hRept
      have htp : 0 < padLen := by
        rw [hPadLen]
        omega
      have hge : padLen ≤ (repeated.map runeWidthOf).sum := by
        rw [hRept, sum_map_flatten_replicate, hRep, hsumP]
        rw [hsumP] at hpad
        exact le_ceil_mul padLen _ hpad
      rcases hloop : padLoop runeWidthOf padLen 0 repeated with e | buf
      · exact Or.inr ⟨by decide, rfl⟩
      · have hbufsum := padLoop_exact runeWidthOf padLen repeated htp hge buf hloop
        left
        cases dir <;>
          · refine ⟨_, rfl, ?_⟩
            simp only [hmk, strMetric, List.map_append, List.sum_append]
            simp only [strMetric, String.toList] at hbufsum hPadLen hlt ⊢
            omega

/-- C4 counterexample: padding by WIDTH also errors when the pad cannot
be cut to the exact number of columns, which the claim reserves to BYTE:
padding the width-1 string "a" to width 2 with the width-2 pad "世" is
rejected instead of producing a result of width 2. -/
theorem lpad_width_split_error :
    Lpad "LPAD" [.str "a", .integer 2, .str "世", .str "WIDTH"] =
      .error (.invalidArgument "LPAD"
        "cannot split pad string in a byte array of a character") ∧
    strMetric .widthCount (goByteSize .utf8) goRuneWidth "a".toList = 1 ∧
    strMetric .widthCount (goByteSize .utf8) goRuneWidth "世".toList = 2 := by
  refine ⟨by decide, by decide, by decide⟩

/-- C4 amended-claim witness: a concrete LPAD call whose input already
reaches the target returns it unchanged. -/
theorem padding_metric_witness :
    execStringsPadding goByteSize goRuneWidth "LPAD"
      [.str "abc", .integer 2, .str "xy", .str "LEN"] .left = .ok (.str "abc") :=
  (padding_metric goByteSize goRuneWidth .left "LPAD" "abc" "xy" 2 "LEN" .runeCount
    (Or.inl ⟨rfl, rfl⟩) (by decide)).1 (by decide)

end Csvq
